import Mathlib

/-!
Verification of the fountain screenplay parser (fountain.go).

The embedding models the line classification engine (`getLineType` and its
predicate functions), the document builder (`Parse`), the corrective
Character pass, the character-name extractor (`CharacterName`) and the text
renderer's word wrapping (`wordWrap`, `blockWrap`).

Modelling conventions:
- Go `int` element-type tags are `Nat` constants with the same iota values.
- Go strings are modelled as Lean `String`; the inputs of interest are
  ASCII, where Go's `strings.ToUpper` agrees with `Char.toUpper` and
  Go's `strings.TrimSpace` agrees with trimming the ASCII whitespace set.
- The `bufio.Scanner` loop over the source buffer is modelled by taking the
  list of lines as input; scanner I/O errors are an external concern.
- The regular expression in the source matching a trailing scene number
  is equivalent to testing for a trailing hash character.
- Go slices of element pointers become lists of `Element` records; the
  in-place rewrite of the last slice entry becomes `dropLast ++ [updated]`.
- The out-of-range write the builder would perform when its merge branch
  runs with an empty element slice (a Go panic) is modelled by the
  `badMerge` flag of `ParseState`.
-/

/-! ## Element type tags (iota values from the source) -/

def GeneralTextType : Nat := 0
def EmptyType : Nat := 1
def TitlePageType : Nat := 2
def SceneHeadingType : Nat := 3
def ActionType : Nat := 4
def CharacterType : Nat := 5
def DialogueType : Nat := 6
def ParentheticalType : Nat := 7
def TransitionType : Nat := 8
def ShotType : Nat := 9
def LyricType : Nat := 10
def NoteType : Nat := 11
def BoneyardType : Nat := 12
def SectionType : Nat := 13
def SynopsisType : Nat := 14
def UnderlineStyle : Nat := 15
def ItalicStyle : Nat := 16
def BoldStyle : Nat := 17
def AllCapsStyle : Nat := 18
def Strikethrough : Nat := 19
def CenterAlignment : Nat := 20
def LeftAlignment : Nat := 21
def RightAlignment : Nat := 22
def PageFeed : Nat := 23

/-- MaxWidth used to set width for fountain text output (default 64). -/
def MaxWidth : Int := 64

/-! ## Data model -/

/-- Element holds the parsed token in either the title page of the document
or scene list parts. -/
structure Element where
  type : Nat
  name : String
  content : String
deriving DecidableEq, Repr

/-- Fountain is the document container returned by Parse. -/
structure Fountain where
  titlePage : List Element
  elements : List Element
deriving DecidableEq, Repr

/-- typeName translated from the source switch. -/
def typeName (t : Nat) : String :=
  if t == PageFeed then "Page Feed"
  else if t == GeneralTextType then "General Text"
  else if t == EmptyType then "Empty"
  else if t == TitlePageType then "Title Page"
  else if t == TransitionType then "Transition"
  else if t == SceneHeadingType then "Scene Heading"
  else if t == ActionType then "Action"
  else if t == CharacterType then "Character"
  else if t == DialogueType then "Dialogue"
  else if t == ParentheticalType then "Parenthetical"
  else if t == LyricType then "Lyric"
  else if t == NoteType then "Note"
  else if t == BoneyardType then "Boneyard"
  else if t == UnderlineStyle then "Underline"
  else if t == ItalicStyle then "Italic"
  else if t == BoldStyle then "Bold"
  else if t == AllCapsStyle then "AllCaps"
  else if t == Strikethrough then "Strikethrough"
  else if t == CenterAlignment then "Center"
  else if t == LeftAlignment then "Left"
  else if t == RightAlignment then "Right"
  else if t == SectionType then "Section"
  else if t == SynopsisType then "Synopsis"
  else ""

/-! ## Go string operations, modelled on the character lists -/

/-- The ASCII white space characters recognized by Go's unicode.IsSpace. -/
def goIsSpace (c : Char) : Bool :=
  c == ' ' || c == '\t' || c == '\n' || c == Char.ofNat 11 || c == Char.ofNat 12 || c == '\r'

/-- strings.TrimSpace on the character list: drop white space on both ends. -/
def trimChars (l : List Char) : List Char :=
  ((l.dropWhile goIsSpace).reverse.dropWhile goIsSpace).reverse

/-- strings.TrimSpace. -/
def goTrimSpace (s : String) : String :=
  String.mk (trimChars s.data)

/-- strings.ToUpper (ASCII range, matching the inputs of interest). -/
def goToUpper (s : String) : String :=
  String.mk (s.data.map Char.toUpper)

/-- strings.HasPrefix. -/
def goStartsWith (s pre : String) : Bool :=
  pre.data.isPrefixOf s.data

/-- strings.HasSuffix. -/
def goEndsWith (s suf : String) : Bool :=
  suf.data.reverse.isPrefixOf s.data.reverse

/-- Occurrence test on character lists used to model strings.Contains. -/
def containsChars (hay needle : List Char) : Bool :=
  match hay with
  | [] => needle.isEmpty
  | _ :: t => needle.isPrefixOf hay || containsChars t needle

/-- strings.Contains. -/
def goSubstr (s sub : String) : Bool :=
  containsChars s.data sub.data

/-- Single separator splitting on the character list, matching
strings.Split with a one character separator. -/
def splitOnChar (sep : Char) : List Char → List (List Char)
  | [] => [[]]
  | c :: cs =>
    let r := splitOnChar sep cs
    if c == sep then [] :: r
    else
      match r with
      | [] => [[c]]
      | w :: ws => (c :: w) :: ws

/-- strings.Split on a single space. -/
def splitOnSpace (s : String) : List String :=
  (splitOnChar ' ' s.data).map String.mk

/-- strings.SplitN(line, .., 2) on the colon separator: the text before the
first colon and the remainder after it. -/
def splitN2Colon (line : String) : String × String :=
  let idx := line.data.findIdx (fun c => c == ':')
  (String.mk (line.data.take idx), String.mk (line.data.drop (idx + 1)))

/-- strings.TrimSuffix. -/
def goTrimSuffix (s suf : String) : String :=
  if goEndsWith s suf then String.mk (s.data.take (s.data.length - suf.data.length)) else s

/-- The double quote character as a one character string. -/
def quoteStr : String := "\""

/-- The apostrophe character. -/
def aposChar : Char := Char.ofNat 39

/-- The possessive suffix with a lower case s. -/
def sufLowS : String := String.mk [aposChar, 's']

/-- The possessive suffix with an upper case S. -/
def sufUpS : String := String.mk [aposChar, 'S']

/-- Helper: does the string contain a character that is not white space? -/
def hasNonWS (s : String) : Bool :=
  s.data.any (fun c => !goIsSpace c)

/-! ## Character name extraction -/

/-- CharacterName takes an element of type Character and trims spaces,
removes parentheticals and returns a string of the character name(s). -/
def CharacterName (element : Element) : String :=
  let characters : List String :=
    if element.type == CharacterType then
      let content := goTrimSpace element.content
      if !(goStartsWith content quoteStr && goEndsWith content quoteStr) then
        let contentParts := splitOnSpace element.content
        contentParts.foldl
          (fun acc part =>
            let c := goTrimSpace part
            if !((c == "") || (goStartsWith c "(" && goEndsWith c ")")) then
              let c := if goEndsWith c sufLowS then goTrimSuffix c sufLowS else c
              let c := if goEndsWith c sufUpS then goTrimSuffix c sufUpS else c
              acc ++ [c]
            else acc)
          []
      else []
    else []
  let characters :=
    if characters.length > 1 && goToUpper (characters.getLastD "") == "VOICE" then
      characters.dropLast
    else characters
  String.intercalate " " characters

/-! ## Word wrapping (text renderer) -/

/-- wordWrap tries to break a line at a suitable place when it is at least
as long as the width; translated from the source loop with its buffer of
string pieces and running counter. -/
def wordWrap (line : String) (width : Int) : String :=
  if (line.length : Int) ≤ width then line
  else
    let words := splitOnSpace line
    let res := words.foldl
      (fun (acc : List String × Int) word =>
        let buf := acc.1
        let l := acc.2
        if l + (word.length : Int) < width then
          if buf.length > 0 then (buf ++ [" ", word], l + (word.length : Int) + 1)
          else (buf ++ [word], l + (word.length : Int))
        else (buf ++ ["\n", word], 0))
      ([], 0)
    String.join res.1 ++ "\n"

/-- blockWrap adds left padding and wraps the text in the block; the width
is first reduced by the padding length. -/
def blockWrap (line padding : String) (width : Int) : String :=
  let width := width - (padding.length : Int)
  if (padding.length : Int) + (line.length : Int) ≤ width then padding ++ line
  else
    let words := splitOnSpace line
    let res := words.foldl
      (fun (acc : List String × Int) word =>
        let buf := acc.1
        let l := acc.2
        if l + (word.length : Int) < width then
          if buf.length > 0 then (buf ++ [" ", word], l + (word.length : Int) + 1)
          else (buf ++ [padding, word], l + (padding.length : Int) + (word.length : Int))
        else (buf ++ ["\n", padding, word], (padding.length : Int) + (word.length : Int)))
      ([], 0)
    String.join res.1 ++ "\n"

/-! ## Line classifier predicates -/

/-- The scene heading tests applied to the upper cased, trimmed line. -/
def sceneHeadingCore (l : String) : Bool :=
  if goStartsWith l "!" then false
  else if goEndsWith l "#" then true
  else if goStartsWith l "." then true
  else if goStartsWith l "EXT" then true
  else if goStartsWith l "INT" then true
  else if goStartsWith l "I/E" then true
  else if goSubstr l " -" then true
  else if l == "FADE IN:" then true
  else if l == "THE END." then true
  else if l == "THE END" then true
  else if l == "LA FIN." then true
  else if l == "LA FIN" then true
  else false

/-- isSceneHeading evaluates a line and returns true when it looks like a
scene heading. -/
def isSceneHeading (line : String) (_prevType : Nat) : Bool :=
  sceneHeadingCore (goToUpper (goTrimSpace line))

/-- The end of script content tests on the upper cased, trimmed content. -/
def endOfScriptCore (l : String) : Bool :=
  l == "THE END." || l == "THE END" || l == "LA FIN." || l == "LA FIN"

/-- isEndOfScript checks a SceneHeading element for a canonical end marker. -/
def isEndOfScript (element : Element) : Bool :=
  if element.type == SceneHeadingType then
    endOfScriptCore (goToUpper (goTrimSpace element.content))
  else false

/-- isParenthetical: line starts with an opening parenthesis and contains a
closing one. -/
def isParenthetical (line : String) (_prevType : Nat) : Bool :=
  goStartsWith line "(" && goSubstr line ")"

/-- isDialogue: a non blank line whose previous type is Character or
Parenthetical. -/
def isDialogue (line : String) (prevType : Nat) : Bool :=
  if goTrimSpace line == "" then false
  else if prevType == CharacterType then true
  else if prevType == ParentheticalType then true
  else false

/-- isCharacter: explicit at sign marker, or an all upper case line after an
empty line, subject to the exclusions of the source. -/
def isCharacter (line : String) (prevType : Nat) : Bool :=
  if goStartsWith line "@" then true
  else if line == goToUpper line && prevType == EmptyType &&
          isParenthetical line prevType == false then
    let content := goToUpper (goTrimSpace line)
    if goStartsWith content quoteStr && goEndsWith content quoteStr then false
    else if goSubstr content "--" || goStartsWith content "INT." ||
            goStartsWith content "EXT." || goEndsWith content "ANGLE" ||
            goEndsWith content "SHOT" || goEndsWith content "P.O.V." ||
            goEndsWith content ":" then false
    else true
  else false

/-- isAction: forced with a bang marker, otherwise the default for a non
blank line matched by none of scene heading, character, dialogue or
parenthetical. -/
def isAction (line : String) (prevType : Nat) : Bool :=
  if goStartsWith line "!" then true
  else if (goTrimSpace line).length == 0 then false
  else if isSceneHeading line prevType == false && isCharacter line prevType == false &&
          isDialogue line prevType == false && isParenthetical line prevType == false then true
  else false

/-- isTransition evaluates the transition cues of the source. -/
def isTransition (line : String) (_prevType : Nat) : Bool :=
  if goStartsWith line ">" then true
  else if goEndsWith line "TO:" || goEndsWith line "IN:" then true
  else
    let l := goTrimSpace line
    if goStartsWith l "FADE TO" || goStartsWith l ">" then true
    else if goSubstr l "THE END." then true
    else false

/-- isTitlePage: still in title page state and the line is neither a scene
heading nor a transition. -/
def isTitlePage (line : String) (prevType : Nat) : Bool :=
  prevType == TitlePageType && isSceneHeading line prevType == false &&
    isTransition line prevType == false

/-- isEmpty: a blank line outside the title page state. -/
def isEmpty (line : String) (prevType : Nat) : Bool :=
  if prevType == TitlePageType then false
  else if (goTrimSpace line).length == 0 then true
  else false

/-- isCenterAlignment: trimmed line wrapped in angle markers. -/
def isCenterAlignment (line : String) (_prevType : Nat) : Bool :=
  let l := goTrimSpace line
  goStartsWith l ">" && goEndsWith l "<"

/-- isLyric: trimmed line starting with a tilde and not closed by one. -/
def isLyric (line : String) (_prevType : Nat) : Bool :=
  let l := goTrimSpace line
  goStartsWith l "~" && !(goEndsWith l "~")

/-- isNoteStart: start of a multi line note. -/
def isNoteStart (line : String) (prevType : Nat) : Bool :=
  let l := goTrimSpace line
  !(prevType == NoteType) && goStartsWith l "[["

/-- isNoteEnd: end of a multi line note. -/
def isNoteEnd (line : String) (prevType : Nat) : Bool :=
  let l := goTrimSpace line
  prevType == NoteType && goEndsWith l "]]"

/-- isNote: a bracketed note or the continuation state of one. -/
def isNote (line : String) (prevType : Nat) : Bool :=
  let l := goTrimSpace line
  if goStartsWith l "[[" && goEndsWith l "]]" then true
  else if isNoteStart l prevType || isNoteEnd l prevType then true
  else false

/-- isBoneyardStart: start of a comment section. -/
def isBoneyardStart (line : String) (prevType : Nat) : Bool :=
  let l := goTrimSpace line
  !(prevType == BoneyardType) && goStartsWith l "/*"

/-- isBoneyardEnd: end of a comment section. -/
def isBoneyardEnd (line : String) (prevType : Nat) : Bool :=
  let l := goTrimSpace line
  prevType == BoneyardType && goEndsWith l "*/"

/-- isBoneyard: a commented out line or the continuation state of one. -/
def isBoneyard (line : String) (prevType : Nat) : Bool :=
  let l := goTrimSpace line
  if goStartsWith l "/*" && goEndsWith l "*/" then true
  else if isBoneyardStart l prevType || isBoneyardEnd l prevType then true
  else false

/-- isPageFeed: the page feed sentinel line. -/
def isPageFeed (line : String) (_prevType : Nat) : Bool :=
  goTrimSpace line == "==="

/-- isSection: markdown style heading marker. -/
def isSection (line : String) (_prevType : Nat) : Bool :=
  goStartsWith (goTrimSpace line) "#"

/-- isSynopsis: leading equals marker. -/
def isSynopsis (line : String) (_prevType : Nat) : Bool :=
  goStartsWith (goTrimSpace line) "="

/-- getLineType evaluates the current line considering the previous line
type and returns the current line type; the predicate chain is in the
source order. -/
def getLineType (line : String) (prevType : Nat) : Nat :=
  if isPageFeed line prevType then PageFeed
  else if isTitlePage line prevType then TitlePageType
  else if isSection line prevType then SectionType
  else if isSynopsis line prevType then SynopsisType
  else if isNote line prevType then NoteType
  else if isLyric line prevType then LyricType
  else if isSceneHeading line prevType then SceneHeadingType
  else if isAction line prevType then ActionType
  else if isTransition line prevType then TransitionType
  else if isCharacter line prevType then CharacterType
  else if isParenthetical line prevType then ParentheticalType
  else if isDialogue line prevType then DialogueType
  else if isBoneyard line prevType then BoneyardType
  else if isEmpty line prevType then EmptyType
  else if isCenterAlignment line prevType then CenterAlignment
  else GeneralTextType

/-! ## Document builder -/

/-- The builder state carried through the scanner loop of Parse.
`badMerge` records whether the merge branch ever ran with an empty element
slice, which in the source would be an out of range slice write. -/
structure ParseState where
  prevType : Nat
  foundEndOfScript : Bool
  titlePage : List Element
  elements : List Element
  badMerge : Bool
deriving DecidableEq, Repr

/-- The loop body of Parse for a single scanned line. -/
def parseLine (st : ParseState) (line : String) : ParseState :=
  if st.foundEndOfScript then
    { st with elements :=
        st.elements ++ [⟨GeneralTextType, typeName GeneralTextType, line⟩] }
  else
    let currentType := getLineType line st.prevType
    if currentType == TitlePageType then
      if goSubstr line ":" then
        let parts := splitN2Colon line
        { st with
            titlePage := st.titlePage ++ [⟨TitlePageType, parts.1, parts.2⟩],
            prevType := currentType }
      else
        match st.titlePage.getLast? with
        | none =>
          { st with
              titlePage := st.titlePage ++ [⟨TitlePageType, "Unknown", line⟩],
              prevType := currentType }
        | some last =>
          { st with
              titlePage := st.titlePage.dropLast ++
                [⟨TitlePageType, last.name, last.content ++ "\n" ++ line⟩],
              prevType := currentType }
    else if st.prevType == currentType then
      match st.elements.getLast? with
      | none =>
        { st with badMerge := true, prevType := currentType }
      | some last =>
        { st with
            elements := st.elements.dropLast ++
              [⟨last.type, typeName last.type, last.content ++ "\n" ++ line⟩],
            prevType := currentType }
    else
      let element : Element := ⟨currentType, typeName currentType, line⟩
      { st with
          elements := st.elements ++ [element],
          prevType := currentType,
          foundEndOfScript :=
            if currentType == SceneHeadingType then isEndOfScript element
            else st.foundEndOfScript }

/-- The initial builder state of Parse. -/
def initState : ParseState :=
  { prevType := TitlePageType, foundEndOfScript := false,
    titlePage := [], elements := [], badMerge := false }

/-- The scanner loop of Parse over the full line sequence. -/
def parseLines (lines : List String) : ParseState :=
  lines.foldl parseLine initState

/-- The downgrade step of the corrective pass: a Character element after an
Empty element whose next element is neither Dialogue nor Parenthetical
becomes GeneralText. -/
def downgrade (prevT : Nat) (e next : Element) : Element :=
  if e.type == CharacterType && prevT == EmptyType &&
     !(next.type == DialogueType || next.type == ParentheticalType) then
    { e with type := GeneralTextType }
  else e

/-- The corrective pass of Parse: walk the elements carrying the previous
element type, downgrade misidentified Character elements (never the last
element, which has no following element to consult), and stop at an end of
script scene heading. -/
def fixupPass (prevT : Nat) : List Element → List Element
  | [] => []
  | [e] => [e]
  | e :: next :: rest =>
    let g := downgrade prevT e next
    if g.type == SceneHeadingType && isEndOfScript g then g :: next :: rest
    else g :: fixupPass g.type (next :: rest)

/-- Parse takes the scanned lines and returns a Fountain document: the
scanner loop followed by the corrective Character pass. -/
def Parse (lines : List String) : Fountain :=
  let st := parseLines lines
  { titlePage := st.titlePage, elements := fixupPass TitlePageType st.elements }

/-! ## Specification side description of run merging

Modelled from the spec: the builder merges same type runs, emitting for
every sequence of consecutive identically classified lines exactly one
element whose content is the lines joined by line breaks. -/

/-- Run merging as described by the spec: accumulate the current run (type
and newline joined content), flush it when the classified type changes. -/
def specRunsAux (t : Nat) (c : String) : List String → List Element
  | [] => [⟨t, typeName t, c⟩]
  | l :: ls =>
    let tn := getLineType l t
    if tn == t then specRunsAux t (c ++ "\n" ++ l) ls
    else ⟨t, typeName t, c⟩ :: specRunsAux tn l ls

/-- Run merging over a whole input: title page classified lines contribute
no body elements, the first body line opens the first run. -/
def specElems : List String → List Element
  | [] => []
  | l :: ls =>
    let t := getLineType l TitlePageType
    if t == TitlePageType then specElems ls
    else specRunsAux t l ls

/-- The end of script region as described by the spec: while the flag is
set, every subsequent line is appended as GeneralText without going
through the classifier, one element per line. -/
def specGT : List String → List Element
  | [] => []
  | l :: ls => ⟨GeneralTextType, typeName GeneralTextType, l⟩ :: specGT ls

/-- Run merging with the end of script lock in, as described by the spec:
accumulate the current run and flush it when the classified type changes;
the moment the newly opened element is an end of script scene heading, the
remaining lines each become their own GeneralText element. -/
def specRunsAuxE (t : Nat) (c : String) : List String → List Element
  | [] => [⟨t, typeName t, c⟩]
  | l :: ls =>
    let tn := getLineType l t
    if tn == t then specRunsAuxE t (c ++ "\n" ++ l) ls
    else if tn == SceneHeadingType && isEndOfScript ⟨tn, typeName tn, l⟩ then
      ⟨t, typeName t, c⟩ :: ⟨tn, typeName tn, l⟩ :: specGT ls
    else ⟨t, typeName t, c⟩ :: specRunsAuxE tn l ls

/-- The spec side description of the whole body element sequence: title
page classified lines contribute no body elements, the first body line
opens the first run (or, if it is itself an end of script scene heading,
starts the lock in region at once). -/
def specBody : List String → List Element
  | [] => []
  | l :: ls =>
    let t := getLineType l TitlePageType
    if t == TitlePageType then specBody ls
    else if t == SceneHeadingType && isEndOfScript ⟨t, typeName t, l⟩ then
      ⟨t, typeName t, l⟩ :: specGT ls
    else specRunsAuxE t l ls

/-! ## Helper lemmas: white space trimming -/

theorem dropWhile_append_of_ne {p : Char → Bool} (l1 l2 : List Char)
    (h : l1.dropWhile p ≠ []) :
    (l1 ++ l2).dropWhile p = l1.dropWhile p ++ l2 := by
  induction l1 with
  | nil => simp at h
  | cons c cs ih =>
    by_cases hc : p c
    · simp only [List.cons_append, List.dropWhile_cons, hc, if_true] at h ⊢
      exact ih h
    · simp [List.dropWhile_cons, hc]

theorem dropWhile_ne_nil_of_any {p : Char → Bool} (l : List Char)
    (h : l.any (fun c => !p c) = true) : l.dropWhile p ≠ [] := by
  intro hnil
  rw [List.dropWhile_eq_nil_iff] at hnil
  rcases List.any_eq_true.mp h with ⟨x, hx, hpx⟩
  rw [hnil x hx] at hpx
  exact absurd hpx (by decide)

theorem any_of_trimChars_ne_nil (l : List Char) (h : trimChars l ≠ []) :
    l.any (fun c => !goIsSpace c) = true := by
  by_contra hn
  apply h
  have hall : ∀ x ∈ l, goIsSpace x = true := by
    intro x hx
    by_contra hns
    exact hn (List.any_eq_true.mpr ⟨x, hx, by simp [hns]⟩)
  unfold trimChars
  have h1 : l.dropWhile goIsSpace = [] := List.dropWhile_eq_nil_iff.mpr hall
  simp [h1]

theorem mem_trimChars_middle (a b : List Char)
    (ha : a.any (fun c => !goIsSpace c) = true)
    (hb : b.any (fun c => !goIsSpace c) = true) :
    '\n' ∈ trimChars (a ++ '\n' :: b) := by
  unfold trimChars
  have ha2 := dropWhile_ne_nil_of_any (p := goIsSpace) a ha
  rw [dropWhile_append_of_ne a ('\n' :: b) ha2]
  rw [List.reverse_append]
  have hrev : ('\n' :: b).reverse = b.reverse ++ ['\n'] := by simp
  rw [hrev, List.append_assoc]
  have hb2 : b.reverse.dropWhile goIsSpace ≠ [] := by
    apply dropWhile_ne_nil_of_any
    rcases List.any_eq_true.mp hb with ⟨x, hx, hpx⟩
    exact List.any_eq_true.mpr ⟨x, List.mem_reverse.mpr hx, hpx⟩
  rw [dropWhile_append_of_ne _ _ hb2]
  rw [List.mem_reverse]
  simp

theorem hasNonWS_of_trim_ne (s : String) (h : goTrimSpace s ≠ "") : hasNonWS s = true := by
  apply any_of_trimChars_ne_nil
  intro hnil
  apply h
  unfold goTrimSpace
  rw [hnil]

theorem endOfScriptCore_of_mem_newline (s : String) (h : '\n' ∈ s.data) :
    endOfScriptCore s = false := by
  unfold endOfScriptCore
  have h1 : (s == "THE END.") = false := by
    apply beq_eq_false_iff_ne.mpr
    intro he
    subst he
    exact absurd h (by decide)
  have h2 : (s == "THE END") = false := by
    apply beq_eq_false_iff_ne.mpr
    intro he
    subst he
    exact absurd h (by decide)
  have h3 : (s == "LA FIN.") = false := by
    apply beq_eq_false_iff_ne.mpr
    intro he
    subst he
    exact absurd h (by decide)
  have h4 : (s == "LA FIN") = false := by
    apply beq_eq_false_iff_ne.mpr
    intro he
    subst he
    exact absurd h (by decide)
  simp [h1, h2, h3, h4]

theorem eos_merged_false (nm a b : String)
    (ha : hasNonWS a = true) (hb : hasNonWS b = true) :
    isEndOfScript ⟨SceneHeadingType, nm, a ++ "\n" ++ b⟩ = false := by
  unfold isEndOfScript
  simp only [beq_self_eq_true, if_true]
  apply endOfScriptCore_of_mem_newline
  unfold goToUpper goTrimSpace
  have hdata : (a ++ "\n" ++ b).data = a.data ++ '\n' :: b.data := by
    rw [String.data_append, String.data_append]
    simp [List.append_assoc]
  rw [hdata]
  have hmid := mem_trimChars_middle a.data b.data ha hb
  exact List.mem_map.mpr ⟨'\n', hmid, by decide⟩

/-! ## Helper lemmas: classifier inversions -/

theorem sceneHeadingCore_empty : sceneHeadingCore "" = false := by decide

theorem isSceneHeading_hasNonWS (line : String) (p : Nat)
    (h : isSceneHeading line p = true) : hasNonWS line = true := by
  apply hasNonWS_of_trim_ne
  intro htrim
  unfold isSceneHeading at h
  rw [htrim] at h
  exact absurd h (by decide)



theorem length_beq_zero_eq_empty (s : String) (h : (s.length == 0) = true) : s = "" := by
  have h2 : s.length = 0 := beq_iff_eq.mp h
  cases s with
  | mk data =>
    have h3 : data.length = 0 := h2
    rw [List.length_eq_zero.mp h3]

theorem dialogue_empty_contra (line : String)
    (hD : isDialogue line CharacterType = false)
    (hE : isEmpty line CharacterType = false) : False := by
  unfold isDialogue at hD
  split at hD
  next htr =>
    have htr2 : goTrimSpace line = "" := beq_iff_eq.mp htr
    have hEt : isEmpty line CharacterType = true := by
      unfold isEmpty
      rw [htr2]
      decide
    rw [hEt] at hE
    exact absurd hE (by decide)
  next htr =>
    rw [if_pos (by decide : (CharacterType == CharacterType) = true)] at hD
    exact absurd hD (by decide)

theorem boneyard_contra (line : String) (p : Nat)
    (hSH : isSceneHeading line p = false) (hA : isAction line p = false)
    (hC : isCharacter line p = false) (hP : isParenthetical line p = false)
    (hD : isDialogue line p = false) (hB : isBoneyard line p = true) : False := by
  unfold isAction at hA
  split at hA
  next hbang => exact absurd hA (by decide)
  next hbang =>
    split at hA
    next htr =>
      have htr2 : goTrimSpace line = "" := length_beq_zero_eq_empty _ htr
      have hBf : isBoneyard line p = false := by
        unfold isBoneyard isBoneyardStart isBoneyardEnd
        rw [htr2]
        have hx : goStartsWith "" "/*" = false := by decide
        have hy : goEndsWith "" "*/" = false := by decide
        have hz : goTrimSpace "" = "" := by decide
        simp [hx, hy, hz]
      rw [hBf] at hB
      exact absurd hB (by decide)
    next htr =>
      split at hA
      next hcond => exact absurd hA (by decide)
      next hcond =>
        apply hcond
        rw [hSH, hC, hD, hP]
        decide

/-- Master inversion facts about the classifier chain, proved by one
descent through the predicate order of getLineType. -/
theorem getLineType_inv (line : String) (p : Nat) :
    (getLineType line p = SceneHeadingType → isSceneHeading line p = true)
  ∧ (p ≠ TitlePageType → getLineType line p ≠ TitlePageType)
  ∧ typeName (getLineType line p) ≠ ""
  ∧ (p = CharacterType → getLineType line p ≠ GeneralTextType)
  ∧ getLineType line p ≠ BoneyardType
  ∧ (getLineType line p = ParentheticalType ↔
      (isPageFeed line p = false ∧ isTitlePage line p = false ∧
       isSection line p = false ∧ isSynopsis line p = false ∧
       isNote line p = false ∧ isLyric line p = false ∧
       isSceneHeading line p = false ∧ isAction line p = false ∧
       isTransition line p = false ∧ isCharacter line p = false ∧
       isParenthetical line p = true)) := by
  unfold getLineType
  cases h1 : isPageFeed line p
  case false =>
    rw [if_neg Bool.false_ne_true]
    cases h2 : isTitlePage line p
    case false =>
      rw [if_neg Bool.false_ne_true]
      cases h3 : isSection line p
      case false =>
        rw [if_neg Bool.false_ne_true]
        cases h4 : isSynopsis line p
        case false =>
          rw [if_neg Bool.false_ne_true]
          cases h5 : isNote line p
          case false =>
            rw [if_neg Bool.false_ne_true]
            cases h6 : isLyric line p
            case false =>
              rw [if_neg Bool.false_ne_true]
              cases h7 : isSceneHeading line p
              case false =>
                rw [if_neg Bool.false_ne_true]
                cases h8 : isAction line p
                case false =>
                  rw [if_neg Bool.false_ne_true]
                  cases h9 : isTransition line p
                  case false =>
                    rw [if_neg Bool.false_ne_true]
                    cases h10 : isCharacter line p
                    case false =>
                      rw [if_neg Bool.false_ne_true]
                      cases h11 : isParenthetical line p
                      case false =>
                        rw [if_neg Bool.false_ne_true]
                        cases h12 : isDialogue line p
                        case false =>
                          rw [if_neg Bool.false_ne_true]
                          cases h13 : isBoneyard line p
                          case false =>
                            rw [if_neg Bool.false_ne_true]
                            cases h14 : isEmpty line p
                            case false =>
                              rw [if_neg Bool.false_ne_true]
                              cases h15 : isCenterAlignment line p
                              case false =>
                                rw [if_neg Bool.false_ne_true]
                                refine ⟨fun hh => absurd hh (by decide), fun _ => by decide, by decide, ?_, by decide, ?_⟩
                                · intro hpc
                                  subst hpc
                                  exact (dialogue_empty_contra line h12 h14).elim
                                · constructor
                                  · intro hh
                                    exact absurd hh (by decide)
                                  · intro hR
                                    exact absurd hR.2.2.2.2.2.2.2.2.2.2 (by decide)
                              case true =>
                                rw [if_pos rfl]
                                refine ⟨fun hh => absurd hh (by decide), fun _ => by decide, by decide, fun _ => by decide, by decide, ?_⟩
                                constructor
                                · intro hh
                                  exact absurd hh (by decide)
                                · intro hR
                                  exact absurd hR.2.2.2.2.2.2.2.2.2.2 (by decide)
                            case true =>
                              rw [if_pos rfl]
                              refine ⟨fun hh => absurd hh (by decide), fun _ => by decide, by decide, fun _ => by decide, by decide, ?_⟩
                              constructor
                              · intro hh
                                exact absurd hh (by decide)
                              · intro hR
                                exact absurd hR.2.2.2.2.2.2.2.2.2.2 (by decide)
                          case true =>
                            rw [if_pos rfl]
                            exact (boneyard_contra line p h7 h8 h10 h11 h12 h13).elim
                        case true =>
                          rw [if_pos rfl]
                          refine ⟨fun hh => absurd hh (by decide), fun _ => by decide, by decide, fun _ => by decide, by decide, ?_⟩
                          constructor
                          · intro hh
                            exact absurd hh (by decide)
                          · intro hR
                            exact absurd hR.2.2.2.2.2.2.2.2.2.2 (by decide)
                      case true =>
                        rw [if_pos rfl]
                        refine ⟨fun hh => absurd hh (by decide), fun _ => by decide, by decide, fun _ => by decide, by decide, ?_⟩
                        constructor
                        · intro _
                          exact ⟨rfl, rfl, rfl, rfl, rfl, rfl, rfl, rfl, rfl, rfl, rfl⟩
                        · intro _
                          rfl
                    case true =>
                      rw [if_pos rfl]
                      refine ⟨fun hh => absurd hh (by decide), fun _ => by decide, by decide, fun _ => by decide, by decide, ?_⟩
                      constructor
                      · intro hh
                        exact absurd hh (by decide)
                      · intro hR
                        exact absurd hR.2.2.2.2.2.2.2.2.2.1 (by decide)
                  case true =>
                    rw [if_pos rfl]
                    refine ⟨fun hh => absurd hh (by decide), fun _ => by decide, by decide, fun _ => by decide, by decide, ?_⟩
                    constructor
                    · intro hh
                      exact absurd hh (by decide)
                    · intro hR
                      exact absurd hR.2.2.2.2.2.2.2.2.1 (by decide)
                case true =>
                  rw [if_pos rfl]
                  refine ⟨fun hh => absurd hh (by decide), fun _ => by decide, by decide, fun _ => by decide, by decide, ?_⟩
                  constructor
                  · intro hh
                    exact absurd hh (by decide)
                  · intro hR
                    exact absurd hR.2.2.2.2.2.2.2.1 (by decide)
              case true =>
                rw [if_pos rfl]
                refine ⟨fun _ => rfl, fun _ => by decide, by decide, fun _ => by decide, by decide, ?_⟩
                constructor
                · intro hh
                  exact absurd hh (by decide)
                · intro hR
                  exact absurd hR.2.2.2.2.2.2.1 (by decide)
            case true =>
              rw [if_pos rfl]
              refine ⟨fun hh => absurd hh (by decide), fun _ => by decide, by decide, fun _ => by decide, by decide, ?_⟩
              constructor
              · intro hh
                exact absurd hh (by decide)
              · intro hR
                exact absurd hR.2.2.2.2.2.1 (by decide)
          case true =>
            rw [if_pos rfl]
            refine ⟨fun hh => absurd hh (by decide), fun _ => by decide, by decide, fun _ => by decide, by decide, ?_⟩
            constructor
            · intro hh
              exact absurd hh (by decide)
            · intro hR
              exact absurd hR.2.2.2.2.1 (by decide)
        case true =>
          rw [if_pos rfl]
          refine ⟨fun hh => absurd hh (by decide), fun _ => by decide, by decide, fun _ => by decide, by decide, ?_⟩
          constructor
          · intro hh
            exact absurd hh (by decide)
          · intro hR
            exact absurd hR.2.2.2.1 (by decide)
      case true =>
        rw [if_pos rfl]
        refine ⟨fun hh => absurd hh (by decide), fun _ => by decide, by decide, fun _ => by decide, by decide, ?_⟩
        constructor
        · intro hh
          exact absurd hh (by decide)
        · intro hR
          exact absurd hR.2.2.1 (by decide)
    case true =>
      rw [if_pos rfl]
      refine ⟨fun hh => absurd hh (by decide), ?_, by decide, fun _ => by decide, by decide, ?_⟩
      · intro hp
        unfold isTitlePage at h2
        rw [Bool.and_eq_true, Bool.and_eq_true] at h2
        exact absurd (beq_iff_eq.mp h2.1.1) hp
      constructor
      · intro hh
        exact absurd hh (by decide)
      · intro hR
        exact absurd hR.2.1 (by decide)
  case true =>
    rw [if_pos rfl]
    refine ⟨fun hh => absurd hh (by decide), fun _ => by decide, by decide, fun _ => by decide, by decide, ?_⟩
    constructor
    · intro hh
      exact absurd hh (by decide)
    · intro hR
      exact absurd hR.1 (by decide)

theorem getLineType_eq_sceneHeading (line : String) (p : Nat)
    (h : getLineType line p = SceneHeadingType) : isSceneHeading line p = true :=
  (getLineType_inv line p).1 h

theorem getLineType_ne_titlePage (line : String) (p : Nat) (hp : p ≠ TitlePageType) :
    getLineType line p ≠ TitlePageType :=
  (getLineType_inv line p).2.1 hp

theorem typeName_getLineType_ne (line : String) (p : Nat) :
    typeName (getLineType line p) ≠ "" :=
  (getLineType_inv line p).2.2.1

theorem getLineType_char_ne_general (line : String) :
    getLineType line CharacterType ≠ GeneralTextType :=
  (getLineType_inv line CharacterType).2.2.2.1 rfl


/-! ## Characterizations of the parseLine branches -/

theorem isEndOfScript_ne_sh (e : Element) (h : e.type ≠ SceneHeadingType) :
    isEndOfScript e = false := by
  unfold isEndOfScript
  rw [if_neg (fun hc => h (beq_iff_eq.mp hc))]

theorem hasNonWS_append_left (a c : String) (h : hasNonWS a = true) :
    hasNonWS (a ++ c) = true := by
  unfold hasNonWS at h ⊢
  rw [String.data_append, List.any_append, h]
  rfl

theorem parseLine_eq_flagTrue (st : ParseState) (line : String)
    (hF : st.foundEndOfScript = true) :
    parseLine st line =
      { st with elements :=
          st.elements ++ [⟨GeneralTextType, typeName GeneralTextType, line⟩] } := by
  simp only [parseLine]
  rw [hF, if_pos rfl]

theorem parseLine_tp_fields (st : ParseState) (line : String)
    (hF : st.foundEndOfScript = false)
    (hT : getLineType line st.prevType = TitlePageType) :
    (parseLine st line).elements = st.elements ∧
    (parseLine st line).prevType = TitlePageType ∧
    (parseLine st line).foundEndOfScript = false ∧
    (parseLine st line).badMerge = st.badMerge := by
  simp only [parseLine]
  rw [hF, if_neg Bool.false_ne_true, hT,
      if_pos (by decide : (TitlePageType == TitlePageType) = true)]
  split
  · exact ⟨rfl, rfl, rfl, rfl⟩
  · split
    · exact ⟨rfl, rfl, rfl, rfl⟩
    · exact ⟨rfl, rfl, rfl, rfl⟩

theorem parseLine_eq_merge (st : ParseState) (line : String)
    (front : List Element) (last : Element) (ct : Nat)
    (hct : getLineType line st.prevType = ct)
    (hF : st.foundEndOfScript = false)
    (hT : ct ≠ TitlePageType)
    (hpc : st.prevType = ct)
    (hel : st.elements = front ++ [last]) :
    parseLine st line =
      { st with
          elements := front ++
            [⟨last.type, typeName last.type, last.content ++ "\n" ++ line⟩],
          prevType := ct } := by
  simp only [parseLine]
  rw [hF, if_neg Bool.false_ne_true, hct, if_neg (by simp [hT]),
      if_pos (by simp [hpc]), hel, List.getLast?_concat]
  rw [List.dropLast_concat]

theorem parseLine_eq_append (st : ParseState) (line : String) (ct : Nat)
    (hct : getLineType line st.prevType = ct)
    (hF : st.foundEndOfScript = false)
    (hT : ct ≠ TitlePageType)
    (hpc : st.prevType ≠ ct) :
    parseLine st line =
      { st with
          elements := st.elements ++ [⟨ct, typeName ct, line⟩],
          prevType := ct,
          foundEndOfScript :=
            if ct == SceneHeadingType then isEndOfScript ⟨ct, typeName ct, line⟩
            else false } := by
  simp only [parseLine]
  rw [hF, if_neg Bool.false_ne_true, hct, if_neg (by simp [hT]),
      if_neg (by simp [hpc])]

/-! ## Builder invariant -/

/-- Once an end of script element appears in a list, every later element is
GeneralText. -/
def goodPairs (l : List Element) : Prop :=
  ∀ i j a b, i < j → l.get? i = some a → l.get? j = some b →
    isEndOfScript a = true → b.type = GeneralTextType

theorem goodPairs_of_no_eos (l : List Element)
    (h : ∀ e ∈ l, isEndOfScript e = false) : goodPairs l := by
  intro i j a b _ ha _ heos
  rw [h a (List.get?_mem ha)] at heos
  exact absurd heos (by decide)

theorem goodPairs_append (l : List Element) (x : Element)
    (h : ∀ e ∈ l, isEndOfScript e = false) : goodPairs (l ++ [x]) := by
  intro i j a b hij ha hb heos
  by_cases hi : i < l.length
  · rw [List.get?_append hi] at ha
    rw [h a (List.get?_mem ha)] at heos
    exact absurd heos (by decide)
  · have hjn : (l ++ [x]).get? j = none := by
      apply List.get?_len_le
      rw [List.length_append]
      simp only [List.length_singleton]
      omega
    rw [hjn] at hb
    exact absurd hb (by simp)

theorem goodPairs_append_general (l : List Element) (x : Element)
    (hl : goodPairs l) (hx : x.type = GeneralTextType) : goodPairs (l ++ [x]) := by
  intro i j a b hij ha hb heos
  by_cases hj : j < l.length
  · rw [List.get?_append hj] at hb
    rw [List.get?_append (Nat.lt_trans hij hj)] at ha
    exact hl i j a b hij ha hb heos
  · rcases Nat.lt_or_ge j (l.length + 1) with hj2 | hj2
    · have hj3 : j = l.length := by omega
      subst hj3
      rw [List.get?_concat_length] at hb
      cases hb
      exact hx
    · have hjn : (l ++ [x]).get? j = none := by
        apply List.get?_len_le
        rw [List.length_append]
        simp only [List.length_singleton]
        omega
      rw [hjn] at hb
      exact absurd hb (by simp)

/-- The invariant maintained by the scanner loop of Parse. -/
structure BuildInv (st : ParseState) : Prop where
  bad : st.badMerge = false
  last_type : st.foundEndOfScript = false → st.prevType ≠ TitlePageType →
    ∃ front lst, st.elements = front ++ [lst] ∧ lst.type = st.prevType
  no_eos : st.foundEndOfScript = false → ∀ e ∈ st.elements, isEndOfScript e = false
  pairs : goodPairs st.elements
  names : ∀ e ∈ st.elements, e.name ≠ ""
  sh_nonws : ∀ e ∈ st.elements, e.type = SceneHeadingType → hasNonWS e.content = true

theorem inv_init : BuildInv initState := by
  refine ⟨rfl, ?_, ?_, ?_, ?_, ?_⟩
  · intro _ hp
    exact absurd rfl hp
  · intro _ e he
    exact absurd he (by simp [initState])
  · intro i j a b _ ha
    simp [initState] at ha
  · intro e he
    exact absurd he (by simp [initState])
  · intro e he
    exact absurd he (by simp [initState])

theorem inv_step (st : ParseState) (line : String) (h : BuildInv st) :
    BuildInv (parseLine st line) := by
  by_cases hF : st.foundEndOfScript = true
  · rw [parseLine_eq_flagTrue st line hF]
    refine ⟨h.bad, ?_, ?_, ?_, ?_, ?_⟩
    · intro hf
      exact absurd (hF.symm.trans hf) (by decide)
    · intro hf
      exact absurd (hF.symm.trans hf) (by decide)
    · exact goodPairs_append_general _ _ h.pairs rfl
    · intro e he
      rcases List.mem_append.mp he with he2 | he2
      · exact h.names e he2
      · rw [List.mem_singleton.mp he2]
        show typeName GeneralTextType ≠ ""
        decide
    · intro e he ht
      rcases List.mem_append.mp he with he2 | he2
      · exact h.sh_nonws e he2 ht
      · rw [List.mem_singleton.mp he2] at ht
        exact absurd (show GeneralTextType = SceneHeadingType from ht) (by decide)
  · have hF2 : st.foundEndOfScript = false := Bool.not_eq_true _ ▸ Bool.eq_false_iff.mpr hF
    by_cases hT : getLineType line st.prevType = TitlePageType
    · obtain ⟨he, hp, hf, hb⟩ := parseLine_tp_fields st line hF2 hT
      refine ⟨hb.trans h.bad, ?_, ?_, ?_, ?_, ?_⟩
      · intro _ hprev
        rw [hp] at hprev
        exact absurd rfl hprev
      · intro _
        rw [he]
        exact h.no_eos hF2
      · rw [he]
        exact h.pairs
      · rw [he]
        exact h.names
      · rw [he]
        exact h.sh_nonws
    · by_cases hpc : st.prevType = getLineType line st.prevType
      · -- merge branch
        have hptp : st.prevType ≠ TitlePageType := by
          intro hx
          exact hT (hpc.symm.trans hx)
        obtain ⟨front, lst, hel, hlt⟩ := h.last_type hF2 hptp
        rw [parseLine_eq_merge st line front lst (getLineType line st.prevType) rfl hF2 hT
              hpc hel]
        have hmem : lst ∈ st.elements := by
          rw [hel]
          simp
        have hmerged_noeos :
            isEndOfScript ⟨lst.type, typeName lst.type, lst.content ++ "\n" ++ line⟩ = false := by
          by_cases hsh : lst.type = SceneHeadingType
          · rw [hsh]
            apply eos_merged_false
            · exact h.sh_nonws lst hmem hsh
            · apply isSceneHeading_hasNonWS line st.prevType
              apply getLineType_eq_sceneHeading
              exact hpc.symm.trans (hlt.symm.trans hsh)
          · exact isEndOfScript_ne_sh _ hsh
        have hnoeos2 : ∀ e ∈ front ++
            [(⟨lst.type, typeName lst.type, lst.content ++ "\n" ++ line⟩ : Element)],
            isEndOfScript e = false := by
          intro e he
          rcases List.mem_append.mp he with he2 | he2
          · apply h.no_eos hF2
            rw [hel]
            exact List.mem_append.mpr (Or.inl he2)
          · rw [List.mem_singleton.mp he2]
            exact hmerged_noeos
        refine ⟨h.bad, ?_, ?_, ?_, ?_, ?_⟩
        · intro _ _
          exact ⟨front, _, rfl, hlt.trans hpc⟩
        · intro _
          exact hnoeos2
        · exact goodPairs_of_no_eos _ hnoeos2
        · intro e he
          rcases List.mem_append.mp he with he2 | he2
          · apply h.names
            rw [hel]
            exact List.mem_append.mpr (Or.inl he2)
          · rw [List.mem_singleton.mp he2]
            show typeName lst.type ≠ ""
            rw [hlt, hpc]
            exact typeName_getLineType_ne line st.prevType
        · intro e he ht
          rcases List.mem_append.mp he with he2 | he2
          · apply h.sh_nonws
            · rw [hel]
              exact List.mem_append.mpr (Or.inl he2)
            · exact ht
          · rw [List.mem_singleton.mp he2] at ht ⊢
            apply hasNonWS_append_left
            apply hasNonWS_append_left
            exact h.sh_nonws lst hmem ht
      · -- append branch
        rw [parseLine_eq_append st line (getLineType line st.prevType) rfl hF2 hT hpc]
        have hnew_name : typeName (getLineType line st.prevType) ≠ "" :=
          typeName_getLineType_ne line st.prevType
        refine ⟨h.bad, ?_, ?_, ?_, ?_, ?_⟩
        · intro _ _
          exact ⟨st.elements, _, rfl, rfl⟩
        · intro hf e he
          rcases List.mem_append.mp he with he2 | he2
          · exact h.no_eos hF2 e he2
          · rw [List.mem_singleton.mp he2]
            by_cases hsh : (getLineType line st.prevType == SceneHeadingType) = true
            · rw [if_pos hsh] at hf
              exact hf
            · apply isEndOfScript_ne_sh
              intro hx
              exact hsh (beq_iff_eq.mpr hx)
        · exact goodPairs_append _ _ (h.no_eos hF2)
        · intro e he
          rcases List.mem_append.mp he with he2 | he2
          · exact h.names e he2
          · rw [List.mem_singleton.mp he2]
            exact hnew_name
        · intro e he ht
          rcases List.mem_append.mp he with he2 | he2
          · exact h.sh_nonws e he2 ht
          · rw [List.mem_singleton.mp he2] at ht ⊢
            apply isSceneHeading_hasNonWS line st.prevType
            apply getLineType_eq_sceneHeading
            exact ht

theorem inv_foldl (ls : List String) (st : ParseState) (h : BuildInv st) :
    BuildInv (List.foldl parseLine st ls) := by
  induction ls generalizing st with
  | nil => exact h
  | cons l ls ih => exact ih (parseLine st l) (inv_step st l h)

theorem inv_parseLines (lines : List String) : BuildInv (parseLines lines) :=
  inv_foldl lines initState inv_init

/-! ## The builder realizes the run merging description -/

theorem flag_mono_step (st : ParseState) (line : String)
    (h : st.foundEndOfScript = true) : (parseLine st line).foundEndOfScript = true := by
  rw [parseLine_eq_flagTrue st line h]
  exact h

theorem flag_mono_foldl (ls : List String) (st : ParseState)
    (h : st.foundEndOfScript = true) :
    (List.foldl parseLine st ls).foundEndOfScript = true := by
  induction ls generalizing st with
  | nil => exact h
  | cons l ls ih => exact ih _ (flag_mono_step st l h)

theorem flag_false_of_foldl (ls : List String) (st : ParseState)
    (h : (List.foldl parseLine st ls).foundEndOfScript = false) :
    st.foundEndOfScript = false := by
  cases hf : st.foundEndOfScript
  · rfl
  · rw [flag_mono_foldl ls st hf] at h
    exact absurd h (by decide)

theorem build_runs (ls : List String) : ∀ (st : ParseState) (front : List Element)
    (t : Nat) (c : String),
    st.foundEndOfScript = false →
    (List.foldl parseLine st ls).foundEndOfScript = false →
    st.elements = front ++ [⟨t, typeName t, c⟩] →
    st.prevType = t → t ≠ TitlePageType →
    (List.foldl parseLine st ls).elements = front ++ specRunsAux t c ls ∧
    (List.foldl parseLine st ls).titlePage = st.titlePage := by
  induction ls with
  | nil =>
    intro st front t c hflag hfinal hel hprev hTP
    simp only [List.foldl_nil, specRunsAux]
    exact ⟨hel, trivial⟩
  | cons l ls ih =>
    intro st front t c hflag hfinal hel hprev hTP
    simp only [List.foldl_cons] at hfinal ⊢
    have hctne : getLineType l st.prevType ≠ TitlePageType := by
      rw [hprev]
      exact getLineType_ne_titlePage l t hTP
    by_cases hmerge : getLineType l st.prevType = t
    · have hstep := parseLine_eq_merge st l front ⟨t, typeName t, c⟩ t hmerge hflag hTP
        hprev hel
      have helnew : (parseLine st l).elements = front ++ [⟨t, typeName t, c ++ "\n" ++ l⟩] := by
        rw [hstep]
      have hprevnew : (parseLine st l).prevType = t := by
        rw [hstep]
      have hflagnew : (parseLine st l).foundEndOfScript = false := by
        rw [hstep]
        exact hflag
      have htpnew : (parseLine st l).titlePage = st.titlePage := by
        rw [hstep]
      obtain ⟨h1, h2⟩ := ih (parseLine st l) front t (c ++ "\n" ++ l) hflagnew hfinal helnew
        hprevnew hTP
      refine ⟨?_, h2.trans htpnew⟩
      rw [h1]
      have hm2 : getLineType l t = t := by
        rw [hprev] at hmerge
        exact hmerge
      simp [specRunsAux, hm2]
    · have hpcne : st.prevType ≠ getLineType l st.prevType :=
        fun hx => hmerge (hx.symm.trans hprev)
      have hstep := parseLine_eq_append st l (getLineType l st.prevType) rfl hflag hctne hpcne
      have hflagnew : (parseLine st l).foundEndOfScript = false :=
        flag_false_of_foldl ls _ hfinal
      have helnew : (parseLine st l).elements =
          (front ++ [⟨t, typeName t, c⟩]) ++
            [⟨getLineType l st.prevType, typeName (getLineType l st.prevType), l⟩] := by
        rw [hstep, hel]
      have hprevnew : (parseLine st l).prevType = getLineType l st.prevType := by
        rw [hstep]
      have htpnew : (parseLine st l).titlePage = st.titlePage := by
        rw [hstep]
      obtain ⟨h1, h2⟩ := ih (parseLine st l) (front ++ [⟨t, typeName t, c⟩])
        (getLineType l st.prevType) l hflagnew hfinal helnew hprevnew hctne
      refine ⟨?_, h2.trans htpnew⟩
      rw [h1]
      have hm2 : getLineType l t ≠ t := by
        intro hx
        apply hmerge
        rw [hprev]
        exact hx
      rw [hprev]
      simp [specRunsAux, hm2]

theorem build_from_tp (ls : List String) : ∀ (st : ParseState),
    st.prevType = TitlePageType →
    st.foundEndOfScript = false →
    st.elements = [] →
    (List.foldl parseLine st ls).foundEndOfScript = false →
    (List.foldl parseLine st ls).elements = specElems ls := by
  induction ls with
  | nil =>
    intro st _ _ hel _
    simpa [specElems] using hel
  | cons l ls ih =>
    intro st hprev hflag hel hfinal
    simp only [List.foldl_cons] at hfinal ⊢
    have hGL : getLineType l st.prevType = getLineType l TitlePageType := by
      rw [hprev]
    by_cases htp : getLineType l TitlePageType = TitlePageType
    · obtain ⟨he, hp, hf, _⟩ := parseLine_tp_fields st l hflag (hGL.trans htp)
      have hres := ih (parseLine st l) hp hf (he.trans hel) hfinal
      rw [hres]
      simp [specElems, htp]
    · have hpcne : st.prevType ≠ getLineType l st.prevType := by
        rw [hprev]
        exact fun hx => htp hx.symm
      have hctne : getLineType l st.prevType ≠ TitlePageType := by
        rw [hGL]
        exact htp
      have hstep := parseLine_eq_append st l (getLineType l st.prevType) rfl hflag hctne hpcne
      have hflagnew : (parseLine st l).foundEndOfScript = false :=
        flag_false_of_foldl ls _ hfinal
      have helnew : (parseLine st l).elements =
          [] ++ [⟨getLineType l st.prevType, typeName (getLineType l st.prevType), l⟩] := by
        rw [hstep, hel]
      have hprevnew : (parseLine st l).prevType = getLineType l st.prevType := by
        rw [hstep]
      obtain ⟨h1, _⟩ := build_runs ls (parseLine st l) []
        (getLineType l st.prevType) l hflagnew hfinal helnew hprevnew hctne
      rw [h1, hGL]
      simp [specElems, htp]

/-- The scanner loop realizes the run merging description whenever the end
of script flag never triggers. -/
theorem parseLines_runs (lines : List String)
    (hfinal : (parseLines lines).foundEndOfScript = false) :
    (parseLines lines).elements = specElems lines :=
  build_from_tp lines initState rfl rfl rfl hfinal

/-! ## The builder realizes the full description, flag region included -/

theorem build_gt (ls : List String) : ∀ (st : ParseState),
    st.foundEndOfScript = true →
    (List.foldl parseLine st ls).elements = st.elements ++ specGT ls ∧
    (List.foldl parseLine st ls).titlePage = st.titlePage := by
  induction ls with
  | nil =>
    intro st _
    simp [specGT]
  | cons l ls ih =>
    intro st hF
    simp only [List.foldl_cons]
    have hstep := parseLine_eq_flagTrue st l hF
    have hFnew : (parseLine st l).foundEndOfScript = true := by
      rw [hstep]
      exact hF
    obtain ⟨h1, h2⟩ := ih (parseLine st l) hFnew
    constructor
    · rw [h1, hstep]
      simp [specGT]
    · rw [h2, hstep]

theorem build_runsE (ls : List String) : ∀ (st : ParseState) (front : List Element)
    (t : Nat) (c : String),
    st.foundEndOfScript = false →
    st.elements = front ++ [⟨t, typeName t, c⟩] →
    st.prevType = t → t ≠ TitlePageType →
    (List.foldl parseLine st ls).elements = front ++ specRunsAuxE t c ls ∧
    (List.foldl parseLine st ls).titlePage = st.titlePage := by
  induction ls with
  | nil =>
    intro st front t c hflag hel hprev hTP
    simp only [List.foldl_nil, specRunsAuxE]
    exact ⟨hel, trivial⟩
  | cons l ls ih =>
    intro st front t c hflag hel hprev hTP
    simp only [List.foldl_cons]
    have hctne : getLineType l st.prevType ≠ TitlePageType := by
      rw [hprev]
      exact getLineType_ne_titlePage l t hTP
    by_cases hmerge : getLineType l st.prevType = t
    · have hstep := parseLine_eq_merge st l front ⟨t, typeName t, c⟩ t hmerge hflag hTP
        hprev hel
      have helnew : (parseLine st l).elements = front ++ [⟨t, typeName t, c ++ "\n" ++ l⟩] := by
        rw [hstep]
      have hprevnew : (parseLine st l).prevType = t := by
        rw [hstep]
      have hflagnew : (parseLine st l).foundEndOfScript = false := by
        rw [hstep]
        exact hflag
      have htpnew : (parseLine st l).titlePage = st.titlePage := by
        rw [hstep]
      obtain ⟨h1, h2⟩ := ih (parseLine st l) front t (c ++ "\n" ++ l) hflagnew helnew
        hprevnew hTP
      refine ⟨?_, h2.trans htpnew⟩
      rw [h1]
      have hm2 : getLineType l t = t := by
        rw [hprev] at hmerge
        exact hmerge
      simp [specRunsAuxE, hm2]
    · have hpcne : st.prevType ≠ getLineType l st.prevType :=
        fun hx => hmerge (hx.symm.trans hprev)
      have hstep := parseLine_eq_append st l (getLineType l st.prevType) rfl hflag hctne hpcne
      have helnew : (parseLine st l).elements =
          (front ++ [⟨t, typeName t, c⟩]) ++
            [⟨getLineType l st.prevType, typeName (getLineType l st.prevType), l⟩] := by
        rw [hstep, hel]
      have hprevnew : (parseLine st l).prevType = getLineType l st.prevType := by
        rw [hstep]
      have htpnew : (parseLine st l).titlePage = st.titlePage := by
        rw [hstep]
      have hm2 : getLineType l t ≠ t := by
        intro hx
        apply hmerge
        rw [hprev]
        exact hx
      by_cases hE : ((getLineType l st.prevType == SceneHeadingType) &&
          isEndOfScript ⟨getLineType l st.prevType,
            typeName (getLineType l st.prevType), l⟩) = true
      · have hflagnew : (parseLine st l).foundEndOfScript = true := by
          rw [hstep]
          rw [Bool.and_eq_true] at hE
          show (if (getLineType l st.prevType == SceneHeadingType) = true then
            isEndOfScript ⟨getLineType l st.prevType,
              typeName (getLineType l st.prevType), l⟩ else false) = true
          rw [if_pos hE.1]
          exact hE.2
        obtain ⟨hg1, hg2⟩ := build_gt ls (parseLine st l) hflagnew
        refine ⟨?_, hg2.trans htpnew⟩
        rw [hg1, helnew, hprev]
        rw [hprev] at hE
        simp [specRunsAuxE, hm2, hE]
      · have hflagnew : (parseLine st l).foundEndOfScript = false := by
          rw [hstep]
          show (if (getLineType l st.prevType == SceneHeadingType) = true then
            isEndOfScript ⟨getLineType l st.prevType,
              typeName (getLineType l st.prevType), l⟩ else false) = false
          cases hsh : (getLineType l st.prevType == SceneHeadingType)
          · rw [if_neg Bool.false_ne_true]
          · rw [if_pos rfl]
            cases hEOS : isEndOfScript ⟨getLineType l st.prevType,
                typeName (getLineType l st.prevType), l⟩
            · rfl
            · refine absurd ?_ hE
              rw [Bool.and_eq_true]
              exact ⟨hsh, hEOS⟩
        obtain ⟨h1, h2⟩ := ih (parseLine st l) (front ++ [⟨t, typeName t, c⟩])
          (getLineType l st.prevType) l hflagnew helnew hprevnew hctne
        refine ⟨?_, h2.trans htpnew⟩
        rw [h1]
        rw [hprev] at hE
        rw [hprev]
        simp [specRunsAuxE, hm2, hE]

theorem build_bodyE (ls : List String) : ∀ (st : ParseState),
    st.prevType = TitlePageType →
    st.foundEndOfScript = false →
    st.elements = [] →
    (List.foldl parseLine st ls).elements = specBody ls := by
  induction ls with
  | nil =>
    intro st _ _ hel
    simpa [specBody] using hel
  | cons l ls ih =>
    intro st hprev hflag hel
    simp only [List.foldl_cons]
    have hGL : getLineType l st.prevType = getLineType l TitlePageType := by
      rw [hprev]
    by_cases htp : getLineType l TitlePageType = TitlePageType
    · obtain ⟨he, hp, hf, _⟩ := parseLine_tp_fields st l hflag (hGL.trans htp)
      have hres := ih (parseLine st l) hp hf (he.trans hel)
      rw [hres]
      simp [specBody, htp]
    · have hpcne : st.prevType ≠ getLineType l st.prevType := by
        rw [hprev]
        exact fun hx => htp hx.symm
      have hctne : getLineType l st.prevType ≠ TitlePageType := by
        rw [hGL]
        exact htp
      have hstep := parseLine_eq_append st l (getLineType l st.prevType) rfl hflag hctne hpcne
      have helnew : (parseLine st l).elements =
          [] ++ [⟨getLineType l st.prevType, typeName (getLineType l st.prevType), l⟩] := by
        rw [hstep, hel]
      have hprevnew : (parseLine st l).prevType = getLineType l st.prevType := by
        rw [hstep]
      by_cases hE : ((getLineType l st.prevType == SceneHeadingType) &&
          isEndOfScript ⟨getLineType l st.prevType,
            typeName (getLineType l st.prevType), l⟩) = true
      · have hflagnew : (parseLine st l).foundEndOfScript = true := by
          rw [hstep]
          rw [Bool.and_eq_true] at hE
          show (if (getLineType l st.prevType == SceneHeadingType) = true then
            isEndOfScript ⟨getLineType l st.prevType,
              typeName (getLineType l st.prevType), l⟩ else false) = true
          rw [if_pos hE.1]
          exact hE.2
        obtain ⟨hg1, _⟩ := build_gt ls (parseLine st l) hflagnew
        rw [hg1, helnew, hGL]
        rw [hGL] at hE
        simp [specBody, htp, hE]
      · have hflagnew : (parseLine st l).foundEndOfScript = false := by
          rw [hstep]
          show (if (getLineType l st.prevType == SceneHeadingType) = true then
            isEndOfScript ⟨getLineType l st.prevType,
              typeName (getLineType l st.prevType), l⟩ else false) = false
          cases hsh : (getLineType l st.prevType == SceneHeadingType)
          · rw [if_neg Bool.false_ne_true]
          · rw [if_pos rfl]
            cases hEOS : isEndOfScript ⟨getLineType l st.prevType,
                typeName (getLineType l st.prevType), l⟩
            · rfl
            · refine absurd ?_ hE
              rw [Bool.and_eq_true]
              exact ⟨hsh, hEOS⟩
        obtain ⟨h1, _⟩ := build_runsE ls (parseLine st l) []
          (getLineType l st.prevType) l hflagnew helnew hprevnew hctne
        rw [h1, hGL]
        rw [hGL] at hE
        simp [specBody, htp, hE]

/-- The scanner loop realizes the full spec side description of the body:
title page skipping, run merging while the flag is unset, and one
GeneralText element per line once the flag is set. -/
theorem parseLines_body (lines : List String) :
    (parseLines lines).elements = specBody lines :=
  build_bodyE lines initState rfl rfl rfl

/-! ## Adjacency structure of the merged runs -/

/-- Relation between consecutive merged runs: distinct types, and a run
following a Character run is never GeneralText (after a Character line,
every line classifies as Dialogue, Empty or some other marked type). -/
def RunRel (a b : Element) : Prop :=
  a.type ≠ b.type ∧ (a.type = CharacterType → b.type ≠ GeneralTextType)

theorem specRunsAux_head (ls : List String) : ∀ (t : Nat) (c : String),
    ∃ e rest, specRunsAux t c ls = e :: rest ∧ e.type = t := by
  induction ls with
  | nil =>
    intro t c
    exact ⟨⟨t, typeName t, c⟩, [], rfl, rfl⟩
  | cons l ls ih =>
    intro t c
    simp only [specRunsAux]
    by_cases h : getLineType l t = t
    · rw [if_pos (by simp [h])]
      exact ih t (c ++ "\n" ++ l)
    · rw [if_neg (by simp [h])]
      exact ⟨⟨t, typeName t, c⟩, _, rfl, rfl⟩

theorem specRunsAux_chain (ls : List String) : ∀ (t : Nat) (c : String),
    List.Chain' RunRel (specRunsAux t c ls) := by
  induction ls with
  | nil =>
    intro t c
    simp [specRunsAux]
  | cons l ls ih =>
    intro t c
    simp only [specRunsAux]
    by_cases h : getLineType l t = t
    · rw [if_pos (by simp [h])]
      exact ih t (c ++ "\n" ++ l)
    · rw [if_neg (by simp [h])]
      rw [List.chain'_cons']
      refine ⟨?_, ih (getLineType l t) l⟩
      intro y hy
      obtain ⟨e, rest, heq, het⟩ := specRunsAux_head ls (getLineType l t) l
      rw [heq] at hy
      simp only [List.head?_cons, Option.mem_def, Option.some.injEq] at hy
      subst hy
      constructor
      · show t ≠ e.type
        rw [het]
        exact fun hx => h hx.symm
      · intro hchar
        have hchar2 : t = CharacterType := hchar
        rw [het, hchar2]
        exact getLineType_char_ne_general l

theorem specElems_chain (ls : List String) : List.Chain' RunRel (specElems ls) := by
  induction ls with
  | nil => simp [specElems]
  | cons l ls ih =>
    simp only [specElems]
    by_cases h : getLineType l TitlePageType = TitlePageType
    · rw [if_pos (by simp [h])]
      exact ih
    · rw [if_neg (by simp [h])]
      exact specRunsAux_chain ls (getLineType l TitlePageType) l

/-! ## The corrective Character pass -/

theorem downgrade_name (p : Nat) (e n : Element) : (downgrade p e n).name = e.name := by
  unfold downgrade
  split <;> rfl

theorem downgrade_content (p : Nat) (e n : Element) :
    (downgrade p e n).content = e.content := by
  unfold downgrade
  split <;> rfl

theorem downgrade_cases (p : Nat) (e n : Element) :
    downgrade p e n = e ∨
    (e.type = CharacterType ∧ p = EmptyType ∧
      downgrade p e n = { e with type := GeneralTextType }) := by
  unfold downgrade
  split
  · next hcond =>
    rw [Bool.and_eq_true, Bool.and_eq_true] at hcond
    exact Or.inr ⟨beq_iff_eq.mp hcond.1.1, beq_iff_eq.mp hcond.1.2, rfl⟩
  · exact Or.inl rfl

theorem downgrade_not_char (p : Nat) (e n : Element) (h : e.type ≠ CharacterType) :
    downgrade p e n = e := by
  rcases downgrade_cases p e n with hc | ⟨hch, _, _⟩
  · exact hc
  · exact absurd hch h

theorem downgrade_hit (p : Nat) (e n : Element)
    (hch : e.type = CharacterType) (hpe : p = EmptyType)
    (hnD : n.type ≠ DialogueType) (hnP : n.type ≠ ParentheticalType) :
    downgrade p e n = { e with type := GeneralTextType } := by
  unfold downgrade
  rw [if_pos]
  rw [Bool.and_eq_true, Bool.and_eq_true]
  refine ⟨⟨beq_iff_eq.mpr hch, beq_iff_eq.mpr hpe⟩, ?_⟩
  simp [hnD, hnP]

theorem fixup_get?_inv (l : List Element) : ∀ (p i : Nat) (b : Element),
    (fixupPass p l).get? i = some b →
    ∃ a, l.get? i = some a ∧
      (b = a ∨ (a.type = CharacterType ∧ b = { a with type := GeneralTextType })) := by
  induction l with
  | nil =>
    intro p i b hb
    simp [fixupPass] at hb
  | cons e tail ih =>
    intro p i b hb
    cases tail with
    | nil =>
      simp only [fixupPass] at hb
      cases i with
      | zero =>
        simp only [List.get?_cons_zero, Option.some.injEq] at hb
        exact ⟨e, rfl, Or.inl hb.symm⟩
      | succ n =>
        simp at hb
    | cons nx rest =>
      simp only [fixupPass] at hb
      split at hb
      · cases i with
        | zero =>
          simp only [List.get?_cons_zero, Option.some.injEq] at hb
          rcases downgrade_cases p e nx with hc | ⟨hch, _, hc⟩
          · exact ⟨e, rfl, Or.inl (hb.symm.trans hc)⟩
          · exact ⟨e, rfl, Or.inr ⟨hch, hb.symm.trans hc⟩⟩
        | succ n =>
          simp only [List.get?_cons_succ] at hb ⊢
          exact ⟨b, hb, Or.inl rfl⟩
      · cases i with
        | zero =>
          simp only [List.get?_cons_zero, Option.some.injEq] at hb
          rcases downgrade_cases p e nx with hc | ⟨hch, _, hc⟩
          · exact ⟨e, rfl, Or.inl (hb.symm.trans hc)⟩
          · exact ⟨e, rfl, Or.inr ⟨hch, hb.symm.trans hc⟩⟩
        | succ n =>
          simp only [List.get?_cons_succ] at hb ⊢
          exact ih _ n b hb

theorem fixup_names (l : List Element) : ∀ (p : Nat),
    (∀ x ∈ l, x.name ≠ "") → ∀ y ∈ fixupPass p l, y.name ≠ "" := by
  induction l with
  | nil =>
    intro p _ y hy
    simp [fixupPass] at hy
  | cons e tail ih =>
    intro p hl y hy
    cases tail with
    | nil =>
      simp only [fixupPass] at hy
      rw [List.mem_singleton.mp hy]
      exact hl e (by simp)
    | cons nx rest =>
      simp only [fixupPass] at hy
      split at hy
      · rcases List.mem_cons.mp hy with hy2 | hy2
        · rw [hy2, downgrade_name]
          exact hl e (by simp)
        · exact hl y (List.mem_cons.mpr (Or.inr hy2))
      · rcases List.mem_cons.mp hy with hy2 | hy2
        · rw [hy2, downgrade_name]
          exact hl e (by simp)
        · exact ih _ (fun x hx => hl x (List.mem_cons.mpr (Or.inr hx))) y hy2

theorem fixup_map_content (l : List Element) : ∀ (p : Nat),
    (fixupPass p l).map (fun e => e.content) = l.map (fun e => e.content) := by
  induction l with
  | nil =>
    intro p
    rfl
  | cons e tail ih =>
    intro p
    cases tail with
    | nil => rfl
    | cons nx rest =>
      simp only [fixupPass]
      split
      · simp [downgrade_content]
      · simp only [List.map_cons, downgrade_content]
        rw [ih]
        simp

theorem fixup_chain (l : List Element) : ∀ (p : Nat),
    List.Chain' RunRel l →
    List.Chain' (fun a b => a.type ≠ b.type) (fixupPass p l) := by
  induction l with
  | nil =>
    intro p _
    simp [fixupPass]
  | cons e tail ih =>
    intro p hch
    cases tail with
    | nil =>
      simp [fixupPass]
    | cons nx rest =>
      have hch2 : List.Chain' RunRel (nx :: rest) := (List.chain'_cons'.mp hch).2
      have hrel : RunRel e nx := by
        have hh := (List.chain'_cons'.mp hch).1
        exact hh nx rfl
      simp only [fixupPass]
      split
      · next hbrk =>
        rcases downgrade_cases p e nx with hg | ⟨hche, _, hg⟩
        · rw [hg]
          rw [List.chain'_cons']
          refine ⟨?_, hch2.imp (fun a b hab => hab.1)⟩
          intro y hy
          simp only [List.head?_cons, Option.mem_def, Option.some.injEq] at hy
          subst hy
          exact hrel.1
        · rw [hg] at hbrk
          simp at hbrk
          exact absurd hbrk.1 (by decide)
      · rw [List.chain'_cons']
        refine ⟨?_, ih _ hch2⟩
        intro y hy
        cases rest with
        | nil =>
          simp only [fixupPass, List.head?_cons, Option.mem_def, Option.some.injEq] at hy
          subst hy
          rcases downgrade_cases p e nx with hg | ⟨hche, _, hg⟩
          · rw [hg]
            exact hrel.1
          · rw [hg]
            exact fun hx => (hrel.2 hche) hx.symm
        | cons r2 rs =>
          simp only [fixupPass] at hy
          have hy2 : y = downgrade (downgrade p e nx).type nx r2 := by
            split at hy <;>
              (simp only [List.head?_cons, Option.mem_def, Option.some.injEq] at hy;
               exact hy.symm)
          subst hy2
          rcases downgrade_cases p e nx with hg | ⟨hche, _, hg⟩
          · rcases downgrade_cases ((downgrade p e nx).type) nx r2 with hg2 | ⟨hchn, hpe2, hg2⟩
            · rw [hg2, hg]
              exact hrel.1
            · rw [hg2, hg]
              rw [hg] at hpe2
              show e.type ≠ GeneralTextType
              rw [hpe2]
              decide
          · rcases downgrade_cases ((downgrade p e nx).type) nx r2 with hg2 | ⟨hchn, hpe2, hg2⟩
            · rw [hg2, hg]
              show GeneralTextType ≠ nx.type
              exact fun hx => (hrel.2 hche) hx.symm
            · rw [hg] at hpe2
              exact absurd (show GeneralTextType = EmptyType from hpe2) (by decide)

theorem fixup_downgrade : ∀ (i : Nat) (l : List Element) (p : Nat) (a b c : Element),
    (∀ j e, j < i + 1 → l.get? j = some e → isEndOfScript e = false) →
    l.get? i = some a → a.type = EmptyType →
    l.get? (i + 1) = some b → b.type = CharacterType →
    l.get? (i + 2) = some c → c.type ≠ DialogueType → c.type ≠ ParentheticalType →
    (fixupPass p l).get? (i + 1) = some { b with type := GeneralTextType } := by
  intro i
  induction i with
  | zero =>
    intro l p a b c hfree ha hat hb hbt hc hcD hcP
    cases l with
    | nil => simp at ha
    | cons a2 tail =>
      simp only [List.get?_cons_zero, Option.some.injEq] at ha
      subst ha
      cases tail with
      | nil => simp at hb
      | cons b2 tail2 =>
        simp only [List.get?_cons_succ, List.get?_cons_zero, Option.some.injEq] at hb
        subst hb
        cases tail2 with
        | nil => simp at hc
        | cons c2 tail3 =>
          simp only [List.get?_cons_succ, List.get?_cons_zero, Option.some.injEq] at hc
          subst hc
          have hg : downgrade p a2 b2 = a2 :=
            downgrade_not_char p a2 b2 (by rw [hat]; decide)
          simp only [fixupPass, hg]
          have hbrk : ((a2.type == SceneHeadingType) && isEndOfScript a2) = false := by
            rw [hat]
            rw [show (EmptyType == SceneHeadingType) = false from by decide]
            simp
          rw [if_neg (by simp [hbrk])]
          simp only [List.get?_cons_succ]
          have hg2 : downgrade a2.type b2 c2 = { b2 with type := GeneralTextType } :=
            downgrade_hit a2.type b2 c2 hbt hat hcD hcP
          cases tail3 with
          | nil =>
            simp only [fixupPass, hg2]
            split
            · rfl
            · rfl
          | cons d tail4 =>
            simp only [fixupPass, hg2]
            split
            · simp
            · simp
  | succ n ih =>
    intro l p a b c hfree ha hat hb hbt hc hcD hcP
    cases l with
    | nil => simp at ha
    | cons e tail =>
      have hfree0 : isEndOfScript e = false := hfree 0 e (by omega) (by simp)
      have htail : ∀ j x, j < n + 1 → tail.get? j = some x → isEndOfScript x = false :=
        fun j x hj hx => hfree (j + 1) x (by omega) (by simpa using hx)
      simp only [List.get?_cons_succ] at ha hb hc
      cases tail with
      | nil => simp at ha
      | cons nx rest =>
        simp only [fixupPass]
        have hbrk : (((downgrade p e nx).type == SceneHeadingType) &&
            isEndOfScript (downgrade p e nx)) = false := by
          rcases downgrade_cases p e nx with hg | ⟨_, _, hg⟩
          · rw [hg, hfree0]
            simp
          · rw [hg]
            rw [isEndOfScript_ne_sh { e with type := GeneralTextType }
              (fun hx => absurd (show GeneralTextType = SceneHeadingType from hx) (by decide))]
            simp
        rw [if_neg (by simp [hbrk])]
        simp only [List.get?_cons_succ]
        exact ih (nx :: rest) (downgrade p e nx).type a b c htail ha hat hb hbt hc hcD hcP

/-! ## Claim theorems -/

set_option maxRecDepth 16000

theorem chain'_get_pair {α : Type} {R : α → α → Prop} (l : List α)
    (h : List.Chain' R l) (i : Nat) (a b : α)
    (ha : l.get? i = some a) (hb : l.get? (i + 1) = some b) : R a b := by
  rw [List.chain'_iff_get] at h
  obtain ⟨hia, hga⟩ := List.get?_eq_some.mp ha
  obtain ⟨hib, hgb⟩ := List.get?_eq_some.mp hb
  have h2 := h i (by omega)
  rw [← hga, ← hgb]
  exact h2

/-- C1 counterexample: a run of two consecutive TitlePage classified lines
produces two title page elements whose contents are not the raw lines
joined, and after the end of script flag two identically consumed lines
produce two separate GeneralText elements instead of one merged element. -/
theorem c1_counterexample :
    (getLineType "Title: A" TitlePageType = TitlePageType ∧
     getLineType "Author: B" TitlePageType = TitlePageType ∧
     (Parse ["Title: A", "Author: B"]).titlePage =
       [⟨TitlePageType, "Title", " A"⟩, ⟨TitlePageType, "Author", " B"⟩] ∧
     (Parse ["Title: A", "Author: B"]).elements = []) ∧
    (Parse ["THE END", "foo", "bar"]).elements =
      [⟨SceneHeadingType, "Scene Heading", "THE END"⟩,
       ⟨GeneralTextType, "General Text", "foo"⟩,
       ⟨GeneralTextType, "General Text", "bar"⟩] :=
  ⟨⟨by decide, by decide, by decide, by decide⟩, by decide⟩

/-- C1 amended: for every input, the body element sequence built by Parse
equals the spec side description specBody: one element per maximal run of
consecutive identically classified non title page lines processed while the
end of script flag is unset, with content the run lines joined by line
breaks; from the moment a newly appended SceneHeading element is an end of
script marker, each remaining line yields its own GeneralText element; and
title page classified lines contribute no body elements. The corrective
pass preserves the element contents. -/
theorem c1_run_merging (lines : List String) :
    (parseLines lines).elements = specBody lines ∧
    (Parse lines).elements.map (fun e => e.content) =
      (specBody lines).map (fun e => e.content) := by
  have h1 := parseLines_body lines
  refine ⟨h1, ?_⟩
  show (fixupPass TitlePageType (parseLines lines).elements).map _ = _
  rw [fixup_map_content, h1]

/-- C2: once an end of script SceneHeading element is in the parsed
document, every element after it has type GeneralText. -/
theorem c2_end_of_script_lockin (lines : List String) (i j : Nat) (a b : Element)
    (hij : i < j)
    (ha : (Parse lines).elements.get? i = some a)
    (heos : isEndOfScript a = true)
    (hb : (Parse lines).elements.get? j = some b) :
    b.type = GeneralTextType := by
  have hpairs := (inv_parseLines lines).pairs
  have hPe : (Parse lines).elements = fixupPass TitlePageType (parseLines lines).elements := rfl
  rw [hPe] at ha hb
  obtain ⟨a0, ha0, hora⟩ := fixup_get?_inv _ _ _ _ ha
  obtain ⟨b0, hb0, horb⟩ := fixup_get?_inv _ _ _ _ hb
  have heos0 : isEndOfScript a0 = true := by
    rcases hora with h1 | ⟨hch, h1⟩
    · rw [← h1]
      exact heos
    · rw [h1] at heos
      rw [isEndOfScript_ne_sh _ (fun hx =>
        absurd (show GeneralTextType = SceneHeadingType from hx) (by decide))] at heos
      exact absurd heos (by decide)
  have hb0t : b0.type = GeneralTextType := hpairs i j a0 b0 hij ha0 hb0 heos0
  rcases horb with h1 | ⟨hch, h1⟩
  · rw [h1]
    exact hb0t
  · exact absurd (hch.symm.trans hb0t) (by decide)

/-- C2 witness: after the THE END scene heading, the following consumed
line is a GeneralText element. -/
theorem c2_witness :
    (0 < 1 ∧
     (Parse ["THE END", "x"]).elements.get? 0 =
       some ⟨SceneHeadingType, "Scene Heading", "THE END"⟩ ∧
     isEndOfScript ⟨SceneHeadingType, "Scene Heading", "THE END"⟩ = true ∧
     (Parse ["THE END", "x"]).elements.get? 1 =
       some ⟨GeneralTextType, "General Text", "x"⟩) ∧
    (⟨GeneralTextType, "General Text", "x"⟩ : Element).type = GeneralTextType :=
  ⟨⟨by decide, by decide, by decide, by decide⟩,
   c2_end_of_script_lockin ["THE END", "x"] 0 1
     ⟨SceneHeadingType, "Scene Heading", "THE END"⟩
     ⟨GeneralTextType, "General Text", "x"⟩ (by decide) (by decide) (by decide)
     (by decide)⟩

/-- C3 counterexample: a Character element preceded by Empty that is the
last element of the document keeps type Character; the corrective pass only
downgrades when a following element exists. -/
theorem c3_counterexample :
    (parseLines ["INT. A - B", "", "JANE"]).elements =
      [⟨SceneHeadingType, "Scene Heading", "INT. A - B"⟩, ⟨EmptyType, "Empty", ""⟩,
       ⟨CharacterType, "Character", "JANE"⟩] ∧
    (Parse ["INT. A - B", "", "JANE"]).elements.get? 2 =
      some ⟨CharacterType, "Character", "JANE"⟩ ∧
    CharacterType ≠ GeneralTextType :=
  ⟨by decide, by decide, by decide⟩

/-- C3 amended: a build time Character element whose previous element is
Empty and whose following element exists and is neither Dialogue nor
Parenthetical is downgraded to GeneralText by the corrective pass; a
Character element with no following element is left unchanged. -/
theorem c3_character_fixup (lines : List String) (i : Nat) (a b c : Element)
    (ha : (parseLines lines).elements.get? i = some a) (hat : a.type = EmptyType)
    (hb : (parseLines lines).elements.get? (i + 1) = some b)
    (hbt : b.type = CharacterType)
    (hc : (parseLines lines).elements.get? (i + 2) = some c)
    (hcD : c.type ≠ DialogueType) (hcP : c.type ≠ ParentheticalType) :
    (Parse lines).elements.get? (i + 1) = some { b with type := GeneralTextType } := by
  refine fixup_downgrade i (parseLines lines).elements TitlePageType a b c ?_ ha hat hb hbt
    hc hcD hcP
  intro j e hj hje
  cases hx : isEndOfScript e
  · rfl
  · have hgt := (inv_parseLines lines).pairs j (i + 1) e b (by omega) hje hb hx
    exact absurd (hbt.symm.trans hgt) (by decide)

/-- C3 witness: the JANE cue followed by a page feed is downgraded to
GeneralText. -/
theorem c3_witness :
    (Parse ["INT. A - B", "", "JANE", "==="]).elements.get? 2 =
      some ⟨GeneralTextType, "Character", "JANE"⟩ :=
  c3_character_fixup ["INT. A - B", "", "JANE", "==="] 1
    ⟨EmptyType, "Empty", ""⟩ ⟨CharacterType, "Character", "JANE"⟩
    ⟨PageFeed, "Page Feed", "==="⟩
    (by decide) (by decide) (by decide) (by decide) (by decide) (by decide) (by decide)

/-- C4 (code evaluated at the failing input): at the default width 64,
wordWrap on three 40 character words emits a second line of length 81 > 64
even though every token has length 40 ≤ 64; the running length counter is
reset to zero instead of to the word length after a break, so the claimed
wrap bound fails on the Action path. -/
theorem c4_wordwrap_failing_input :
    ((splitOnChar '\n' (wordWrap (String.intercalate " "
        [String.mk (List.replicate 40 'a'), String.mk (List.replicate 40 'b'),
         String.mk (List.replicate 40 'c')]) MaxWidth).data).map List.length)
      = [40, 81, 0] ∧
    (∀ w ∈ splitOnSpace (String.intercalate " "
        [String.mk (List.replicate 40 'a'), String.mk (List.replicate 40 'b'),
         String.mk (List.replicate 40 'c')]), (w.length : Int) ≤ MaxWidth) ∧
    (81 : Int) > MaxWidth :=
  ⟨by decide, by decide, by decide⟩

/-- C5 counterexample: after an end of script scene heading two adjacent
elements share the GeneralText type. -/
theorem c5_counterexample :
    (Parse ["THE END", "foo", "bar"]).elements.get? 1 =
      some ⟨GeneralTextType, "General Text", "foo"⟩ ∧
    (Parse ["THE END", "foo", "bar"]).elements.get? 2 =
      some ⟨GeneralTextType, "General Text", "bar"⟩ ∧
    (⟨GeneralTextType, "General Text", "foo"⟩ : Element).type =
      (⟨GeneralTextType, "General Text", "bar"⟩ : Element).type :=
  ⟨by decide, by decide, by decide⟩

/-- C5 amended: in documents on which the end of script flag never
triggers, no two adjacent elements of the parsed document share a type,
the corrective Character pass included. -/
theorem c5_adjacent_distinct (lines : List String) (i : Nat) (a b : Element)
    (hflag : (parseLines lines).foundEndOfScript = false)
    (ha : (Parse lines).elements.get? i = some a)
    (hb : (Parse lines).elements.get? (i + 1) = some b) :
    a.type ≠ b.type := by
  have h1 := parseLines_runs lines hflag
  have hch : List.Chain' (fun x y => x.type ≠ y.type)
      (fixupPass TitlePageType (parseLines lines).elements) := by
    rw [h1]
    exact fixup_chain _ _ (specElems_chain lines)
  have hPe : (Parse lines).elements = fixupPass TitlePageType (parseLines lines).elements := rfl
  rw [hPe] at ha hb
  exact chain'_get_pair _ hch i a b ha hb

/-- C5 witness: the scene heading and the empty line after it have distinct
types. -/
theorem c5_witness :
    ((parseLines ["INT. A - B", "", "John enters."]).foundEndOfScript = false ∧
     (Parse ["INT. A - B", "", "John enters."]).elements.get? 0 =
       some ⟨SceneHeadingType, "Scene Heading", "INT. A - B"⟩ ∧
     (Parse ["INT. A - B", "", "John enters."]).elements.get? 1 =
       some ⟨EmptyType, "Empty", ""⟩) ∧
    SceneHeadingType ≠ EmptyType :=
  ⟨⟨by decide, by decide, by decide⟩,
   c5_adjacent_distinct ["INT. A - B", "", "John enters."] 0
     ⟨SceneHeadingType, "Scene Heading", "INT. A - B"⟩ ⟨EmptyType, "Empty", ""⟩
     (by decide) (by decide) (by decide)⟩

/-- C6 counterexample: a parenthetical shaped line is classified
Parenthetical even when the previous type is Action, which is neither
Character nor Dialogue. -/
theorem c6_counterexample :
    getLineType "(quietly)" ActionType = ParentheticalType ∧
    ActionType ≠ CharacterType ∧ ActionType ≠ DialogueType :=
  ⟨by decide, by decide, by decide⟩

/-- C6 amended: ParentheticalType is assigned exactly when no higher
priority predicate matches and the line starts with an opening parenthesis
and contains a closing one; the previous type is not consulted by the
parenthetical shape test itself. -/
theorem c6_parenthetical_chain (line : String) (prevType : Nat) :
    getLineType line prevType = ParentheticalType ↔
      (isPageFeed line prevType = false ∧ isTitlePage line prevType = false ∧
       isSection line prevType = false ∧ isSynopsis line prevType = false ∧
       isNote line prevType = false ∧ isLyric line prevType = false ∧
       isSceneHeading line prevType = false ∧ isAction line prevType = false ∧
       isTransition line prevType = false ∧ isCharacter line prevType = false ∧
       isParenthetical line prevType = true) :=
  (getLineType_inv line prevType).2.2.2.2.2

/-- C6 witness: the chain characterization applied after a Dialogue line. -/
theorem c6_witness :
    getLineType "(quietly)" DialogueType = ParentheticalType :=
  (c6_parenthetical_chain "(quietly)" DialogueType).mpr
    ⟨by decide, by decide, by decide, by decide, by decide, by decide, by decide, by decide,
     by decide, by decide, by decide⟩

/-- C7 counterexample: a single line boneyard after an empty line is
classified Action, not Boneyard, because the action predicate fires first. -/
theorem c7_counterexample :
    getLineType "/* cut material */" EmptyType = ActionType ∧
    ActionType ≠ BoneyardType :=
  ⟨by decide, by decide⟩

/-- C7 amended: the classifier never returns BoneyardType for any line and
any previous type; every boneyard shaped line is captured by an earlier
predicate of the chain. -/
theorem c7_no_boneyard (line : String) (prevType : Nat) :
    getLineType line prevType ≠ BoneyardType :=
  (getLineType_inv line prevType).2.2.2.2.1

/-- C8 counterexample: a body element carries the display name of its type,
here Scene Heading, not an absent name. -/
theorem c8_counterexample :
    (Parse ["INT. A - B"]).elements =
      [⟨SceneHeadingType, "Scene Heading", "INT. A - B"⟩] ∧
    ("Scene Heading" : String) ≠ "" :=
  ⟨by decide, by decide⟩

/-- C8 amended: every element of the body sequence carries a nonempty name,
the display name of its build time type; names are not populated only for
title page elements. -/
theorem c8_body_names_nonempty (lines : List String) (e : Element)
    (he : e ∈ (Parse lines).elements) : e.name ≠ "" := by
  have hnames := (inv_parseLines lines).names
  exact fixup_names _ _ hnames e he

/-- C8 witness: the scene heading element of a one line script has the
nonempty name Scene Heading. -/
theorem c8_witness :
    ((⟨SceneHeadingType, "Scene Heading", "INT. A - B"⟩ : Element) ∈
      (Parse ["INT. A - B"]).elements) ∧
    (⟨SceneHeadingType, "Scene Heading", "INT. A - B"⟩ : Element).name ≠ "" :=
  ⟨by decide, c8_body_names_nonempty ["INT. A - B"] _ (by decide)⟩

/-- C9: CharacterName strips the parenthetical from JANE (O.S.), returns
the empty string for a fully quoted cue, and drops a trailing VOICE token
when more than one token remains. -/
theorem c9_character_name :
    CharacterName ⟨CharacterType, "", "JANE (O.S.)"⟩ = "JANE" ∧
    CharacterName ⟨CharacterType, "", "\"WHISPERING\""⟩ = "" ∧
    CharacterName ⟨CharacterType, "", "BOB AND TED VOICE"⟩ = "BOB AND TED" :=
  ⟨by decide, by decide, by decide⟩

/-- C10: the merge branch of the builder never runs with an empty element
slice, so the out of range fallback write is unreachable on every input. -/
theorem c10_no_bad_merge (lines : List String) :
    (parseLines lines).badMerge = false :=
  (inv_parseLines lines).bad
